import Mathlib

/-!
Shallow embedding of the non-trivial logic of `src/app.py` (a Streamlit
dashboard over the CORD-19 `metadata.csv`): the tiered data-loading dispatch
(sample loads, the chunked Full-mode loop with its 500,000-row cap, the
progress signal and the failure fallback) and the data-preparation block
(date coercion, row dropping, derived year, year-range filter).

External library effects are made explicit: the outcome of a
`pd.read_csv` call is an `Except` value, and a possible mid-stream I/O or
parse failure of the chunk iterator is injected through an `errAt`
parameter.  `pd.to_datetime(-, errors="coerce")` is abstracted to a caller
supplied partial function from the raw string to the parsed year, the only
component of the date the script ever uses.
-/

/-- Scalar value held in one cell of a loaded table.  Dates are abstracted to
the year they carry, the only component `src/app.py` ever reads from them
(`df["publish_time"].dt.year`, line 120).  `na` stands for pandas NaN/NaT. -/
inductive Cell where
  | s (v : String)
  | n (v : Int)
  | date (year : Int)
  | na
deriving DecidableEq

/-- One record: a mapping from column name to cell value, as an association
list. -/
abbrev Row : Type := List (String × Cell)

/-- An in-memory table: column names plus an ordered list of records. -/
structure Dataset where
  columns : List String
  rows : List Row
deriving DecidableEq

/-- Reading column `c` of a row; absent keys behave as NaN. -/
def rowGet (r : Row) (c : String) : Cell :=
  (r.lookup c).getD Cell.na

/-- Writing column `c` of a row (pandas column assignment overwrites any
existing column of that name). -/
def rowSet (c : String) (v : Cell) (r : Row) : Row :=
  (c, v) :: r.filter (fun p => p.1 != c)

/-- Result of `pd.to_datetime(cell, errors="coerce")` on one `publish_time`
cell, abstracted to the parsed year.  The external parser is the `parse`
argument (`none` = unparseable, coerced to NaT); cells that are not strings
coerce to NaT as well. -/
def coerceCell (parse : String → Option Int) : Cell → Cell
  | Cell.s v =>
    match parse v with
    | some y => Cell.date y
    | none => Cell.na
  | _ => Cell.na

/-- Coercion of the `publish_time` column of one row (line 118). -/
def coerceRow (parse : String → Option Int) (r : Row) : Row :=
  rowSet "publish_time" (coerceCell parse (rowGet r "publish_time")) r

/-- Does the (coerced) row have a non-NaT `publish_time`?  This is the row
predicate behind `df.dropna(subset=["publish_time"])` (line 119). -/
def hasDate (r : Row) : Bool :=
  match rowGet r "publish_time" with
  | Cell.date _ => true
  | _ => false

/-- Derived year of a coerced row (`df["publish_time"].dt.year`, line 120). -/
def yearCell (r : Row) : Cell :=
  match rowGet r "publish_time" with
  | Cell.date y => Cell.n y
  | _ => Cell.na

/-- Column list after a pandas column assignment: appended when new. -/
def addCol (cols : List String) (c : String) : List String :=
  if cols.contains c then cols else cols ++ [c]

/-- Embedding of the data-preparation block, `src/app.py` lines 115-123.
When `publish_time` exists the script coerces that column in place, drops
the rows whose date did not parse, and adds the derived `year` column; the
result is rebound to `df`, so it is the dataset every later line of the
script sees.  When the column is missing, every row gets the fixed default
`year = 2020` (line 123). -/
def prepareData (parse : String → Option Int) (ds : Dataset) : Dataset :=
  if ds.columns.contains "publish_time" then
    Dataset.mk (addCol ds.columns "year")
      (((ds.rows.map (coerceRow parse)).filter hasDate).map
        (fun r => rowSet "year" (yearCell r) r))
  else
    Dataset.mk (addCol ds.columns "year")
      (ds.rows.map (fun r => rowSet "year" (Cell.n 2020) r))

/-- Embedding of the year-range filter, `src/app.py` line 132:
`filtered = df[(df["year"] >= lo) & (df["year"] <= hi)]`.  Comparisons
against NaN are false, so rows without a numeric year are excluded. -/
def yearFilter (lo hi : Int) (ds : Dataset) : Dataset :=
  Dataset.mk ds.columns
    (ds.rows.filter (fun r =>
      match rowGet r "year" with
      | Cell.n y => decide (lo ≤ y) && decide (y ≤ hi)
      | _ => false))

/-- Does the raw (pre-coercion) row carry a parseable `publish_time`
string? -/
def rowParses (parse : String → Option Int) (r : Row) : Bool :=
  match rowGet r "publish_time" with
  | Cell.s v => (parse v).isSome
  | _ => false

/-- Sizes of the successive chunks the pandas iterator yields for a source of
`r` data rows with `chunksize=50000` (line 66): full 50,000-row chunks
followed by the remainder.  The first argument is recursion fuel;
`chunkSizes` supplies enough of it. -/
def chunkSizesAux : Nat → Nat → List Nat
  | 0, _ => []
  | fuel + 1, r =>
    if r = 0 then [] else min 50000 r :: chunkSizesAux fuel (r - min 50000 r)

/-- Chunk decomposition of a source file of `r` data rows. -/
def chunkSizes (r : Nat) : List Nat := chunkSizesAux r r

/-- Loop state of the Full-mode chunk loop (lines 59-77): accumulated chunk
sizes, running row count, the progress values emitted so far, and whether
the 500,000-row truncation warning fired. -/
structure FullAcc where
  chunks : List Nat
  total : Nat
  progress : List ℚ
  warned : Bool
deriving DecidableEq

/-- Initial loop state (lines 59-61). -/
def initAcc : FullAcc := FullAcc.mk [] 0 [] false

/-- Embedding of the Full-mode chunk loop (`src/app.py` lines 66-77).
`errAt = some k` injects an I/O or parse failure at the k-th remaining
chunk fetch; `Except.error` carries the loop state at the moment the
exception escapes to the handler (its accumulated chunks are then
discarded by the handler, its progress values were already emitted).
Each iteration mirrors the source order: append the chunk, add its length
to `total_rows`, emit `min(total_rows / 1000000, 1.0)`, then warn and
break once `total_rows >= 500000`. -/
def fullLoop : Option Nat → List Nat → FullAcc → Except FullAcc FullAcc
  | errAt, [], acc =>
    if errAt = some 0 then Except.error acc else Except.ok acc
  | errAt, c :: rest, acc =>
    if errAt = some 0 then Except.error acc
    else if 500000 ≤ acc.total + c then
      Except.ok (FullAcc.mk (acc.chunks ++ [c]) (acc.total + c)
        (acc.progress ++ [min (((acc.total + c : Nat) : ℚ) / 1000000) 1]) true)
    else
      fullLoop (errAt.map (fun k => k - 1)) rest
        (FullAcc.mk (acc.chunks ++ [c]) (acc.total + c)
          (acc.progress ++ [min (((acc.total + c : Nat) : ℚ) / 1000000) 1])
          acc.warned)

/-- Final loop state of a Full-mode run, whether it ended normally or in the
exception handler. -/
def accOf : Except FullAcc FullAcc → FullAcc
  | Except.ok a => a
  | Except.error a => a

/-- Progress values emitted during a Full-mode run over `r` data rows. -/
def runProgressLog (errAt : Option Nat) (r : Nat) : List ℚ :=
  (accOf (fullLoop errAt (chunkSizes r) initAcc)).progress

/-- Accumulated row count at the end of a Full-mode run over `r` data rows. -/
def fullTotal (errAt : Option Nat) (r : Nat) : Nat :=
  (accOf (fullLoop errAt (chunkSizes r) initAcc)).total

/-- Embedding of `load_sample_data` (`src/app.py` lines 9-17).  `readResult`
is the outcome of `pd.read_csv("metadata.csv", nrows=nrows)`.  The source
never binds that result: line 13 lacks a `df =` assignment, so the
following `return df` looks up the global `df`, which is unbound at every
call site, raising NameError; the blanket `except` catches it and returns
None.  Hence both branches produce `none`. -/
def load_sample_data (readResult : Except Unit Dataset) : Option Dataset :=
  match readResult with
  | Except.error _ => none
  | Except.ok _ => none

/-- The three entries of the sidebar selectbox (lines 45-48). -/
inductive LoadMode where
  | sampleSmall
  | sampleMedium
  | full
deriving DecidableEq

/-- Outcome of the module-level load dispatch (lines 50-94) as seen by the
rest of the script: either the app proceeds with a dataframe of `rows`
rows (`truncWarned` records whether the 500,000-row warning of line 76
fired), or the script halted at `st.stop()` — after "No data loaded"
(lines 84-85) or after "Failed to load dataset" (lines 92-94, `df` is
None). -/
inductive AppOutcome where
  | running (rows : Nat) (truncWarned : Bool)
  | haltedNoData
  | haltedLoadFailed
deriving DecidableEq

/-- Embedding of the load dispatch (`src/app.py` lines 50-94).  `r` is the
number of data rows of `metadata.csv/metadata.csv`, `errAt` injects a
failure into the Full-mode chunk reader, and `sampleRead` is the outcome
of the read attempted inside `load_sample_data`. -/
def appLoad (mode : LoadMode) (r : Nat) (errAt : Option Nat)
    (sampleRead : Except Unit Dataset) : AppOutcome :=
  match mode with
  | LoadMode.sampleSmall =>
    match load_sample_data sampleRead with
    | some df => AppOutcome.running df.rows.length false
    | none => AppOutcome.haltedLoadFailed
  | LoadMode.sampleMedium =>
    match load_sample_data sampleRead with
    | some df => AppOutcome.running df.rows.length false
    | none => AppOutcome.haltedLoadFailed
  | LoadMode.full =>
    match fullLoop errAt (chunkSizes r) initAcc with
    | Except.ok acc =>
      if acc.chunks = [] then AppOutcome.haltedNoData
      else AppOutcome.running acc.total acc.warned
    | Except.error _ =>
      match load_sample_data sampleRead with
      | some df => AppOutcome.running df.rows.length false
      | none => AppOutcome.haltedLoadFailed

/-- Shape of a pandas chunk decomposition: every chunk is nonempty and at
most 50,000 rows, and every non-final chunk is exactly 50,000 rows. -/
def goodChunks : List Nat → Prop
  | [] => True
  | c :: rest => 0 < c ∧ c ≤ 50000 ∧ (rest ≠ [] → c = 50000) ∧ goodChunks rest

/-- A source of zero rows yields no chunks. -/
theorem chunkSizesAux_zero (fuel : Nat) : chunkSizesAux fuel 0 = [] := by
  cases fuel <;> simp [chunkSizesAux]

/-- Every chunk decomposition produced by `chunkSizesAux` is shaped like a
pandas chunk stream. -/
theorem goodChunks_chunkSizesAux (fuel : Nat) :
    ∀ r : Nat, goodChunks (chunkSizesAux fuel r) := by
  induction fuel with
  | zero => intro r; simp [chunkSizesAux, goodChunks]
  | succ fuel ih =>
    intro r
    by_cases hr : r = 0
    · simp [chunkSizesAux, hr, goodChunks]
    · simp only [chunkSizesAux, hr, if_false, goodChunks]
      refine ⟨?_, ?_, ?_, ih _⟩
      · omega
      · exact min_le_left _ _
      · intro hne
        by_contra hc
        have hrle : r ≤ 50000 := by
          rcases le_or_lt r 50000 with h | h
          · exact h
          · exact absurd (by omega) hc
        have : r - min 50000 r = 0 := by omega
        rw [this, chunkSizesAux_zero] at hne
        exact hne rfl

/-- The chunks of a source of `r` rows account for all `r` rows when the fuel
suffices. -/
theorem chunkSizesAux_sum (fuel : Nat) :
    ∀ r : Nat, r ≤ fuel → (chunkSizesAux fuel r).sum = r := by
  induction fuel with
  | zero => intro r hr; interval_cases r; simp [chunkSizesAux]
  | succ fuel ih =>
    intro r hr
    by_cases hr0 : r = 0
    · simp [chunkSizesAux, hr0]
    · simp only [chunkSizesAux, hr0, if_false, List.sum_cons]
      rw [ih (r - min 50000 r) (by omega)]
      omega

theorem chunkSizes_sum (r : Nat) : (chunkSizes r).sum = r :=
  chunkSizesAux_sum r r le_rfl

theorem goodChunks_chunkSizes (r : Nat) : goodChunks (chunkSizes r) :=
  goodChunks_chunkSizesAux r r

/-- A nonempty source yields at least one chunk. -/
theorem chunkSizes_ne_nil (r : Nat) (hr : 0 < r) : chunkSizes r ≠ [] := by
  unfold chunkSizes chunkSizesAux
  cases r with
  | zero => omega
  | succ n => simp

/-- Loop state after appending one chunk of `c` rows: the chunk list and row
count grow, one progress value is emitted, and the warning flag becomes
`w`. -/
def stepAcc (acc : FullAcc) (c : Nat) (w : Bool) : FullAcc :=
  FullAcc.mk (acc.chunks ++ [c]) (acc.total + c)
    (acc.progress ++ [min (((acc.total + c : Nat) : ℚ) / 1000000) 1]) w

theorem stepAcc_total (acc : FullAcc) (c : Nat) (w : Bool) :
    (stepAcc acc c w).total = acc.total + c := rfl

theorem stepAcc_chunks (acc : FullAcc) (c : Nat) (w : Bool) :
    (stepAcc acc c w).chunks = acc.chunks ++ [c] := rfl

theorem stepAcc_progress (acc : FullAcc) (c : Nat) (w : Bool) :
    (stepAcc acc c w).progress =
      acc.progress ++ [min (((acc.total + c : Nat) : ℚ) / 1000000) 1] := rfl

theorem stepAcc_warned (acc : FullAcc) (c : Nat) (w : Bool) :
    (stepAcc acc c w).warned = w := rfl

/-- One-step unfolding of the chunk loop on an exhausted chunk stream. -/
theorem fullLoop_nil (errAt : Option Nat) (acc : FullAcc) :
    fullLoop errAt [] acc =
      if errAt = some 0 then Except.error acc else Except.ok acc := rfl

/-- One-step unfolding of the chunk loop on a fetched chunk. -/
theorem fullLoop_cons (errAt : Option Nat) (c : Nat) (rest : List Nat)
    (acc : FullAcc) :
    fullLoop errAt (c :: rest) acc =
      if errAt = some 0 then Except.error acc
      else if 500000 ≤ acc.total + c then Except.ok (stepAcc acc c true)
      else fullLoop (errAt.map (fun k => k - 1)) rest
        (stepAcc acc c acc.warned) := rfl

theorem none_ne_some_zero : ¬ (none : Option Nat) = some 0 := by simp

/-- Cap invariant of the chunk loop: starting from a multiple of 50,000 below
the cap and consuming pandas-shaped chunks, a normally finishing loop never
accumulates more than 500,000 rows. -/
theorem fullLoop_ok_total_le :
    ∀ (cs : List Nat) (errAt : Option Nat) (acc acc' : FullAcc),
      goodChunks cs → 50000 ∣ acc.total → acc.total < 500000 →
      fullLoop errAt cs acc = Except.ok acc' → acc'.total ≤ 500000 := by
  intro cs
  induction cs with
  | nil =>
    intro errAt acc acc' _ _ hlt h
    rw [fullLoop_nil] at h
    split at h
    · cases h
    · cases h; omega
  | cons c rest ih =>
    intro errAt acc acc' hg hdvd hlt h
    obtain ⟨hc0, hc50, hfull, hgrest⟩ := hg
    obtain ⟨k, hk⟩ := hdvd
    rw [fullLoop_cons] at h
    split at h
    · cases h
    · split at h
      · cases h
        rw [stepAcc_total]
        omega
      · rename_i hnb
        cases rest with
        | nil =>
          rw [fullLoop_nil] at h
          split at h
          · cases h
          · cases h
            rw [stepAcc_total]
            omega
        | cons c2 rest2 =>
          have hc : c = 50000 := hfull (by simp)
          refine ih _ _ _ hgrest ⟨k + 1, ?_⟩ ?_ h
          · rw [stepAcc_total]; omega
          · rw [stepAcc_total]; omega

/-- A failure-free run whose chunks total strictly below the cap finishes
normally, accumulates exactly the sum of the chunks, never fires the
truncation warning, and appends at least one chunk when given one. -/
theorem fullLoop_none_uncapped :
    ∀ (cs : List Nat) (acc : FullAcc), acc.total + cs.sum < 500000 →
      ∃ acc', fullLoop none cs acc = Except.ok acc' ∧
        acc'.total = acc.total + cs.sum ∧ acc'.warned = acc.warned ∧
        (acc'.chunks = [] → acc.chunks = [] ∧ cs = []) := by
  intro cs
  induction cs with
  | nil =>
    intro acc hlt
    refine ⟨acc, ?_, by simp, rfl, fun h => ⟨h, rfl⟩⟩
    rw [fullLoop_nil, if_neg none_ne_some_zero]
  | cons c rest ih =>
    intro acc hlt
    rw [List.sum_cons] at hlt
    have hnb : ¬ 500000 ≤ acc.total + c := by omega
    obtain ⟨acc', heq, htot, hw, hch⟩ :=
      ih (stepAcc acc c acc.warned) (by rw [stepAcc_total]; omega)
    rw [stepAcc_total] at htot
    rw [stepAcc_warned] at hw
    refine ⟨acc', ?_, by rw [List.sum_cons]; omega, hw, ?_⟩
    · rw [fullLoop_cons, if_neg none_ne_some_zero, if_neg hnb]
      simpa using heq
    · intro h
      obtain ⟨hc, -⟩ := hch h
      rw [stepAcc_chunks] at hc
      simp at hc

/-- A failure-free run over pandas-shaped chunks totalling at least the cap
stops with exactly 500,000 accumulated rows, fires the truncation warning,
and has appended at least one chunk. -/
theorem fullLoop_none_capped :
    ∀ (cs : List Nat) (acc : FullAcc), goodChunks cs → 50000 ∣ acc.total →
      acc.total < 500000 → 500000 ≤ acc.total + cs.sum →
      ∃ acc', fullLoop none cs acc = Except.ok acc' ∧
        acc'.total = 500000 ∧ acc'.warned = true ∧ acc'.chunks ≠ [] := by
  intro cs
  induction cs with
  | nil =>
    intro acc _ _ hlt hge
    rw [List.sum_nil] at hge
    omega
  | cons c rest ih =>
    intro acc hg hdvd hlt hge
    obtain ⟨hc0, hc50, hfull, hgrest⟩ := hg
    obtain ⟨k, hk⟩ := hdvd
    rw [List.sum_cons] at hge
    by_cases hb : 500000 ≤ acc.total + c
    · refine ⟨stepAcc acc c true, ?_, ?_, rfl, ?_⟩
      · rw [fullLoop_cons, if_neg none_ne_some_zero, if_pos hb]
      · rw [stepAcc_total]; omega
      · rw [stepAcc_chunks]; simp
    · cases rest with
      | nil => rw [List.sum_nil] at hge; omega
      | cons c2 rest2 =>
        have hc : c = 50000 := hfull (by simp)
        obtain ⟨acc', heq, htot, hw, hch⟩ :=
          ih (stepAcc acc c acc.warned) hgrest
            ⟨k + 1, by rw [stepAcc_total]; omega⟩
            (by rw [stepAcc_total]; omega)
            (by rw [stepAcc_total]; omega)
        refine ⟨acc', ?_, htot, hw, hch⟩
        rw [fullLoop_cons, if_neg none_ne_some_zero, if_neg hb]
        simpa using heq

/-- The last element of a list with one element appended. -/
theorem getLast?_append_single {α : Type _} (l : List α) (a : α) :
    (l ++ [a]).getLast? = some a :=
  List.getLast?_concat l

/-- Appending a value dominating the previous last element keeps the list a
nondecreasing chain. -/
theorem chain_le_append_single (l : List ℚ) (y : ℚ)
    (hch : List.Chain' (fun a b => a ≤ b) l)
    (hlast : ∀ x ∈ l.getLast?, x ≤ y) :
    List.Chain' (fun a b => a ≤ b) (l ++ [y]) := by
  refine List.Chain'.append hch (List.chain'_singleton y) ?_
  intro x hx z hz
  simp only [List.head?_cons, Option.mem_def, Option.some.injEq] at hz
  rw [← hz]
  exact hlast x hx

/-- The emitted progress value is monotone in the accumulated row count. -/
theorem progressVal_mono {a b : Nat} (h : a ≤ b) :
    min ((a : ℚ) / 1000000) 1 ≤ min ((b : ℚ) / 1000000) 1 := by
  refine min_le_min ?_ le_rfl
  have hab : (a : ℚ) ≤ (b : ℚ) := by exact_mod_cast h
  exact div_le_div_of_nonneg_right hab (by norm_num) |>.trans_eq rfl

/-- Progress invariant: if the already emitted progress values form a
nondecreasing chain whose last element is at most the clamped progress of
the current total, the whole run's emitted progress values form a
nondecreasing chain — whether the run ends normally, capped, or in the
exception handler. -/
theorem fullLoop_progress_inv :
    ∀ (cs : List Nat) (errAt : Option Nat) (acc : FullAcc),
      List.Chain' (fun a b => a ≤ b) acc.progress →
      (∀ x ∈ acc.progress.getLast?, x ≤ min ((acc.total : ℚ) / 1000000) 1) →
      List.Chain' (fun a b => a ≤ b) (accOf (fullLoop errAt cs acc)).progress := by
  intro cs
  induction cs with
  | nil =>
    intro errAt acc hch hlast
    rw [fullLoop_nil]
    split
    · exact hch
    · exact hch
  | cons c rest ih =>
    intro errAt acc hch hlast
    rw [fullLoop_cons]
    split
    · exact hch
    · split
      · show List.Chain' (fun a b => a ≤ b) (stepAcc acc c true).progress
        rw [stepAcc_progress]
        refine chain_le_append_single _ _ hch ?_
        intro x hx
        exact (hlast x hx).trans (progressVal_mono (by omega))
      · refine ih _ _ ?_ ?_
        · rw [stepAcc_progress]
          refine chain_le_append_single _ _ hch ?_
          intro x hx
          exact (hlast x hx).trans (progressVal_mono (by omega))
        · rw [stepAcc_progress, stepAcc_total, getLast?_append_single]
          intro x hx
          simp only [Option.mem_def, Option.some.injEq] at hx
          rw [← hx]

/-- Final-value invariant of a failure-free run: the last emitted progress
value is the clamped progress of the final accumulated total, provided the
incoming log already ends that way whenever no chunk remains. -/
theorem fullLoop_none_getLast :
    ∀ (cs : List Nat) (acc : FullAcc),
      (cs = [] → acc.progress.getLast? =
        some (min ((acc.total : ℚ) / 1000000) 1)) →
      (accOf (fullLoop none cs acc)).progress.getLast? =
        some (min (((accOf (fullLoop none cs acc)).total : ℚ) / 1000000) 1) := by
  intro cs
  induction cs with
  | nil =>
    intro acc h
    rw [fullLoop_nil, if_neg none_ne_some_zero]
    exact h rfl
  | cons c rest ih =>
    intro acc h
    rw [fullLoop_cons, if_neg none_ne_some_zero]
    split
    · show (stepAcc acc c true).progress.getLast? =
        some (min (((stepAcc acc c true).total : ℚ) / 1000000) 1)
      rw [stepAcc_progress, stepAcc_total, getLast?_append_single]
    · simp only [Option.map_none']
      refine ih _ ?_
      intro _
      rw [stepAcc_progress, stepAcc_total, getLast?_append_single]

/-- One-step unfolding of the load dispatch in Full mode: because the sample
loader returns `none` for every read outcome, the except-branch of the
dispatch always ends at "Failed to load dataset". -/
theorem appLoad_full_eq (r : Nat) (errAt : Option Nat)
    (sampleRead : Except Unit Dataset) :
    appLoad LoadMode.full r errAt sampleRead =
      match fullLoop errAt (chunkSizes r) initAcc with
      | Except.ok acc =>
        if acc.chunks = [] then AppOutcome.haltedNoData
        else AppOutcome.running acc.total acc.warned
      | Except.error _ => AppOutcome.haltedLoadFailed := by
  cases sampleRead <;> rfl

/-- Reading back the column just written. -/
theorem rowGet_rowSet_self (c : String) (v : Cell) (r : Row) :
    rowGet (rowSet c v r) c = v := by
  simp [rowGet, rowSet, List.lookup]

/-- The dropna predicate after coercion agrees with parseability of the raw
row. -/
theorem hasDate_coerceRow (parse : String → Option Int) (r : Row) :
    hasDate (coerceRow parse r) = rowParses parse r := by
  unfold hasDate coerceRow rowParses
  rw [rowGet_rowSet_self]
  cases h : rowGet r "publish_time" with
  | s v =>
    cases hp : parse v with
    | none => simp [coerceCell, hp]
    | some y => simp [coerceCell, hp]
  | n v => simp [coerceCell]
  | date y => simp [coerceCell]
  | na => simp [coerceCell]

/-- C1: every Dataset a Full-mode load hands to the rest of the app has at
most 500,000 rows, for every source size, every injected read failure and
every sample-read outcome: the chunk loop stops appending as soon as the
accumulated row count reaches 500,000. -/
theorem full_load_rows_le_cap (r : Nat) (errAt : Option Nat)
    (sampleRead : Except Unit Dataset) (rows : Nat) (w : Bool)
    (h : appLoad LoadMode.full r errAt sampleRead = AppOutcome.running rows w) :
    rows ≤ 500000 := by
  rw [appLoad_full_eq] at h
  cases heq : fullLoop errAt (chunkSizes r) initAcc with
  | ok acc =>
    rw [heq] at h
    dsimp only at h
    split at h
    · cases h
    · cases h
      exact fullLoop_ok_total_le _ _ _ _ (goodChunks_chunkSizes r)
        ⟨0, rfl⟩ (by norm_num [initAcc]) heq
  | error acc =>
    rw [heq] at h
    cases h

/-- Witness for C1 at a concrete three-row source. -/
theorem full_load_rows_le_cap_witness :
    appLoad LoadMode.full 3 none (Except.error ()) =
      AppOutcome.running 3 false ∧ 3 ≤ 500000 :=
  ⟨by decide, full_load_rows_le_cap 3 none (Except.error ()) 3 false (by decide)⟩

/-- C3 counterexample: the claim fails at both ends of its range.  At exactly
R = 500,000 rows the loop's cap test `total_rows >= 500000` fires on the
last chunk, so the truncation warning is emitted even though nothing was
truncated; and at R = 0 the load does not succeed at all — the script
stops at "No data loaded". -/
theorem full_load_boundary_counterexample :
    appLoad LoadMode.full 500000 none (Except.error ()) =
      AppOutcome.running 500000 true ∧
    appLoad LoadMode.full 0 none (Except.error ()) =
      AppOutcome.haltedNoData := by
  constructor
  · decide
  · decide

/-- C3 (amended): for every source with 0 < R < 500,000 rows and no read
failure, the Full-mode load succeeds with exactly R rows and the
truncation warning is not emitted.  (At R = 500,000 exactly R rows are
returned but the warning fires; at R = 0 the script halts instead.) -/
theorem full_load_exact_below_cap (r : Nat) (sampleRead : Except Unit Dataset)
    (h0 : 0 < r) (hlt : r < 500000) :
    appLoad LoadMode.full r none sampleRead = AppOutcome.running r false := by
  rw [appLoad_full_eq]
  obtain ⟨acc', heq, htot, hw, hch⟩ :=
    fullLoop_none_uncapped (chunkSizes r) initAcc
      (by rw [chunkSizes_sum]; norm_num [initAcc]; omega)
  rw [heq]
  dsimp only
  rw [chunkSizes_sum] at htot
  have ht : acc'.total = r := by norm_num [initAcc] at htot; exact htot
  have hne : ¬ acc'.chunks = [] := by
    intro hc
    exact (chunkSizes_ne_nil r h0) (hch hc).2
  rw [if_neg hne, ht, hw]
  rfl

/-- Witness for the amended C3 at a concrete three-row source. -/
theorem full_load_exact_below_cap_witness :
    appLoad LoadMode.full 3 none (Except.ok (Dataset.mk [] [])) =
      AppOutcome.running 3 false :=
  full_load_exact_below_cap 3 (Except.ok (Dataset.mk [] []))
    (by decide) (by decide)

/-- C5 counterexample: for a 600,000-row source the cap is hit — the loop
exits with 500,000 accumulated rows — yet the final emitted progress value
is `min(500000/1000000, 1.0) = 1/2`, not the 1.0 the claim requires when
capped. -/
theorem progress_final_value_counterexample :
    fullTotal none 600000 = 500000 ∧
    (runProgressLog none 600000).getLast? = some ((1 : ℚ) / 2) ∧
    ((1 : ℚ) / 2) ≠ 1 := by
  obtain ⟨acc', heq, htot, hw, hch⟩ :=
    fullLoop_none_capped (chunkSizes 600000) initAcc
      (goodChunks_chunkSizes 600000) ⟨0, rfl⟩ (by norm_num [initAcc])
      (by rw [chunkSizes_sum]; norm_num [initAcc])
  have hT : fullTotal none 600000 = 500000 := by
    unfold fullTotal
    rw [heq]
    exact htot
  refine ⟨hT, ?_, by norm_num⟩
  have hlast := fullLoop_none_getLast (chunkSizes 600000) initAcc
    (fun hnil => absurd hnil (chunkSizes_ne_nil 600000 (by norm_num)))
  have hlog : (runProgressLog none 600000).getLast? =
      some (min ((fullTotal none 600000 : ℚ) / 1000000) 1) := hlast
  rw [hlog, hT]
  have hv : ((500000 : Nat) : ℚ) / 1000000 = 1 / 2 := by norm_num
  rw [hv, min_eq_left (by norm_num)]

/-- C5 (amended): the progress values emitted during any Full-mode run (also
a failing one) form a nondecreasing sequence, and for a nonempty source a
failure-free run's final progress value is `min(total/1000000, 1.0)` of
the exit total — `min(R/1000000, 1.0)` when exhausted but 1/2, not 1.0,
when the 500,000-row cap is hit. -/
theorem progress_monotone_final (r : Nat) (errAt : Option Nat) :
    List.Chain' (fun a b => a ≤ b) (runProgressLog errAt r) ∧
    (0 < r → (runProgressLog none r).getLast? =
      some (min ((fullTotal none r : ℚ) / 1000000) 1)) := by
  constructor
  · exact fullLoop_progress_inv (chunkSizes r) errAt initAcc
      (by simp [initAcc]) (by simp [initAcc])
  · intro h0
    exact fullLoop_none_getLast (chunkSizes r) initAcc
      (fun hnil => absurd hnil (chunkSizes_ne_nil r h0))

/-- Witness for the amended C5 at a concrete three-row source. -/
theorem progress_monotone_final_witness :
    (runProgressLog none 3).getLast? =
      some (min ((fullTotal none 3 : ℚ) / 1000000) 1) :=
  (progress_monotone_final 3 none).2 (by decide)

/-- C6: failures are converted to result values at the loader boundary.  A
failing read in either Sample mode surfaces directly as the
"Failed to load dataset" halt — for every state of the Full-mode reader,
so no fallback read is consulted — and a mid-stream Full-mode failure also
ends in a result value (through the fallback, which yields no data). -/
theorem failures_converted_at_boundary (r : Nat) (errAt : Option Nat) :
    appLoad LoadMode.sampleSmall r errAt (Except.error ()) =
      AppOutcome.haltedLoadFailed ∧
    appLoad LoadMode.sampleMedium r errAt (Except.error ()) =
      AppOutcome.haltedLoadFailed ∧
    ∀ (sampleRead : Except Unit Dataset) (acc : FullAcc),
      fullLoop errAt (chunkSizes r) initAcc = Except.error acc →
      appLoad LoadMode.full r errAt sampleRead =
        AppOutcome.haltedLoadFailed := by
  refine ⟨rfl, rfl, ?_⟩
  intro sampleRead acc heq
  rw [appLoad_full_eq, heq]

/-- Witness for C6: a failure at the very first chunk fetch. -/
theorem failures_converted_at_boundary_witness :
    appLoad LoadMode.full 0 (some 0) (Except.error ()) =
      AppOutcome.haltedLoadFailed :=
  (failures_converted_at_boundary 0 (some 0)).2.2 (Except.error ()) initAcc
    rfl

/-- C10: when the Full-mode read finishes without raising but produced zero
chunks, the script reports "No data loaded" and stops — a distinct outcome
from the fallback path, which is never consulted. -/
theorem empty_chunks_halts_no_fallback (r : Nat) (errAt : Option Nat)
    (sampleRead : Except Unit Dataset) (acc : FullAcc)
    (hok : fullLoop errAt (chunkSizes r) initAcc = Except.ok acc)
    (hempty : acc.chunks = []) :
    appLoad LoadMode.full r errAt sampleRead = AppOutcome.haltedNoData := by
  rw [appLoad_full_eq, hok]
  dsimp only
  rw [if_pos hempty]

/-- Witness for C10: an empty (header-only) source. -/
theorem empty_chunks_halts_no_fallback_witness :
    appLoad LoadMode.full 0 none (Except.ok (Dataset.mk [] [])) =
      AppOutcome.haltedNoData :=
  empty_chunks_halts_no_fallback 0 none (Except.ok (Dataset.mk [] [])) initAcc
    rfl rfl

/-- C2 is violated by the code: even when the sample read succeeds on a 5-row
source, both Sample modes end at the "Failed to load dataset" halt instead
of returning min(5, 10000) = 5 rows: line 13 of `src/app.py` never binds
the read result, so `load_sample_data` always returns None. -/
theorem sample_load_returns_no_rows :
    appLoad LoadMode.sampleSmall 5 none
        (Except.ok (Dataset.mk ["title"]
          (List.replicate 5 [("title", Cell.s "t")]))) =
      AppOutcome.haltedLoadFailed ∧
    appLoad LoadMode.sampleMedium 5 none
        (Except.ok (Dataset.mk ["title"]
          (List.replicate 5 [("title", Cell.s "t")]))) =
      AppOutcome.haltedLoadFailed :=
  ⟨rfl, rfl⟩

/-- C4 is violated by the code: a Full-mode load failing at the third chunk
fetch falls into the except-branch, which calls `load_sample_data(10000)`
— but that retry returns None even though the sample read itself would
succeed (here with a 5-row dataset), so the fallback can never recover and
the script always halts with "Failed to load dataset". -/
theorem full_fallback_cannot_recover :
    appLoad LoadMode.full 600000 (some 2)
        (Except.ok (Dataset.mk ["title"]
          (List.replicate 5 [("title", Cell.s "t")]))) =
      AppOutcome.haltedLoadFailed := by
  decide

/-- C9 is violated by the code: two SampleSmall loads of the same unchanged
source yield identical results, but those results are not Datasets — both
calls return None regardless of the read outcome, because line 13 never
binds the read result. -/
theorem sample_load_twice_no_dataset :
    load_sample_data (Except.ok (Dataset.mk ["title"]
        (List.replicate 5 [("title", Cell.s "t")]))) = none ∧
    load_sample_data (Except.error ()) = none :=
  ⟨rfl, rfl⟩

/-- C7 counterexample: with a single row whose date string does not parse,
the preparation block hands the rest of the script a dataset with zero
rows — the unparseable row is dropped from the dataset the script keeps
(`df` is rebound to the dropped frame on line 119), not merely from a
derived view, so the base does not keep all its rows. -/
theorem base_dataset_mutation_counterexample :
    (prepareData (fun _ => none)
        (Dataset.mk ["publish_time"]
          [[("publish_time", Cell.s "not-a-date")]])).rows = [] ∧
    (Dataset.mk ["publish_time"]
      [[("publish_time", Cell.s "not-a-date")]]).rows.length = 1 := by
  constructor
  · decide
  · decide

/-- C7 (amended): the preparation block replaces the base dataset — it keeps
exactly the rows whose date parses, each carrying a numeric derived year —
while the subsequent year-range filter is pure: it produces a new Dataset
that is a sublist of the prepared rows, with the same columns, leaving the
prepared dataset itself unchanged. -/
theorem prepare_replaces_base_filter_pure (parse : String → Option Int)
    (ds : Dataset) (lo hi : Int)
    (h : ds.columns.contains "publish_time" = true) :
    (prepareData parse ds).rows.length =
      (ds.rows.filter (rowParses parse)).length ∧
    (∀ row ∈ (prepareData parse ds).rows,
      ∃ y : Int, rowGet row "year" = Cell.n y) ∧
    (yearFilter lo hi (prepareData parse ds)).rows.Sublist
      (prepareData parse ds).rows ∧
    (yearFilter lo hi (prepareData parse ds)).columns =
      (prepareData parse ds).columns := by
  refine ⟨?_, ?_, List.filter_sublist _, rfl⟩
  · unfold prepareData
    rw [if_pos h]
    dsimp only
    rw [List.length_map, List.filter_map, List.length_map]
    congr 1
    apply List.filter_congr
    intro x _
    exact hasDate_coerceRow parse x
  · unfold prepareData
    rw [if_pos h]
    dsimp only
    intro row hrow
    rw [List.mem_map] at hrow
    obtain ⟨r0, hr0, rfl⟩ := hrow
    have hd : hasDate r0 = true := List.of_mem_filter hr0
    rw [rowGet_rowSet_self]
    unfold hasDate at hd
    unfold yearCell
    cases hg : rowGet r0 "publish_time" with
    | date y => exact ⟨y, rfl⟩
    | s v => rw [hg] at hd; cases hd
    | n v => rw [hg] at hd; cases hd
    | na => rw [hg] at hd; cases hd

/-- Witness for the amended C7 on a two-row dataset with one parseable and
one unparseable date. -/
theorem prepare_replaces_base_filter_pure_witness :
    (prepareData (fun s => if s = "2021-06-01" then some 2021 else none)
        (Dataset.mk ["publish_time"]
          [[("publish_time", Cell.s "2021-06-01")],
           [("publish_time", Cell.s "junk")]])).rows.length =
      ((Dataset.mk ["publish_time"]
          [[("publish_time", Cell.s "2021-06-01")],
           [("publish_time", Cell.s "junk")]]).rows.filter
        (rowParses (fun s => if s = "2021-06-01" then some 2021 else none))).length ∧
    (∀ row ∈ (prepareData (fun s => if s = "2021-06-01" then some 2021 else none)
        (Dataset.mk ["publish_time"]
          [[("publish_time", Cell.s "2021-06-01")],
           [("publish_time", Cell.s "junk")]])).rows,
      ∃ y : Int, rowGet row "year" = Cell.n y) ∧
    (yearFilter 2020 2022 (prepareData
        (fun s => if s = "2021-06-01" then some 2021 else none)
        (Dataset.mk ["publish_time"]
          [[("publish_time", Cell.s "2021-06-01")],
           [("publish_time", Cell.s "junk")]]))).rows.Sublist
      (prepareData (fun s => if s = "2021-06-01" then some 2021 else none)
        (Dataset.mk ["publish_time"]
          [[("publish_time", Cell.s "2021-06-01")],
           [("publish_time", Cell.s "junk")]])).rows ∧
    (yearFilter 2020 2022 (prepareData
        (fun s => if s = "2021-06-01" then some 2021 else none)
        (Dataset.mk ["publish_time"]
          [[("publish_time", Cell.s "2021-06-01")],
           [("publish_time", Cell.s "junk")]]))).columns =
      (prepareData (fun s => if s = "2021-06-01" then some 2021 else none)
        (Dataset.mk ["publish_time"]
          [[("publish_time", Cell.s "2021-06-01")],
           [("publish_time", Cell.s "junk")]])).columns :=
  prepare_replaces_base_filter_pure
    (fun s => if s = "2021-06-01" then some 2021 else none)
    (Dataset.mk ["publish_time"]
      [[("publish_time", Cell.s "2021-06-01")],
       [("publish_time", Cell.s "junk")]]) 2020 2022 (by decide)

/-- C8: when the optional `publish_time` column is absent, the preparation
block does not fail: no row is dropped and every row of the prepared
dataset carries the fixed default derived year 2020. -/
theorem missing_column_default_year (parse : String → Option Int)
    (ds : Dataset) (h : ds.columns.contains "publish_time" = false) :
    (prepareData parse ds).rows.length = ds.rows.length ∧
    ∀ row ∈ (prepareData parse ds).rows, rowGet row "year" = Cell.n 2020 := by
  unfold prepareData
  rw [if_neg (by rw [h]; exact Bool.false_ne_true)]
  dsimp only
  constructor
  · exact List.length_map _ _
  · intro row hrow
    rw [List.mem_map] at hrow
    obtain ⟨r0, -, rfl⟩ := hrow
    exact rowGet_rowSet_self _ _ _

/-- Witness for C8 on a one-row dataset without a `publish_time` column. -/
theorem missing_column_default_year_witness :
    (prepareData (fun _ => none)
        (Dataset.mk ["title"] [[("title", Cell.s "a")]])).rows.length =
      (Dataset.mk ["title"] [[("title", Cell.s "a")]]).rows.length ∧
    ∀ row ∈ (prepareData (fun _ => none)
        (Dataset.mk ["title"] [[("title", Cell.s "a")]])).rows,
      rowGet row "year" = Cell.n 2020 :=
  missing_column_default_year (fun _ => none)
    (Dataset.mk ["title"] [[("title", Cell.s "a")]]) (by decide)
